import Mathlib

/-!
Shallow embedding of the parallelogram canvas demo (`src/js/app.js`): the
`Point` hit-test, the `Stage` state (ordered point list plus the stored
derived center and area), the geometry (area via dot product, `acos` and
`sin`; fourth vertex; inscribed-circle radius) and the drag interaction
handlers (`_startMove`, `_move`).  Coordinates are modelled as rationals
(all coordinate arithmetic in the source is field arithmetic); the area and
radius are real-valued because they go through `sqrt`, `acos` and `sin`.
Rendering calls (`ctx.*`) have no effect on the modelled state.
-/

/-- Embeds the `Point` constructor state (app.js lines 9-13): the
coordinates and the fixed hit-test radius. -/
structure Point where
  x : ℚ
  y : ℚ
  radius : ℚ
deriving DecidableEq, Inhabited, Repr

/-- Embeds `new Point(x, y)` (app.js lines 9-13): the radius is always
`5.5`. -/
def mkPoint (x y : ℚ) : Point :=
  ⟨x, y, 5.5⟩

/-- Embeds `Point.prototype.contains` (app.js lines 33-36). -/
def Point.contains (p : Point) (x y : ℚ) : Bool :=
  decide (p.x - p.radius ≤ x) && decide (p.x + p.radius ≥ x) &&
    decide (p.y - p.radius ≤ y) && decide (p.y + p.radius ≥ y)

open Classical in
/-- Embeds the body of `Stage.prototype._calculateArea` (app.js lines
131-149) as a pure function of the three points it reads from
`this.points`: the side vectors from `p2`, their lengths `d1` and `d2`,
the angle `a` obtained from the dot product (`0` when either length is
`0`, mirroring the JS truthiness test `d1 && d2`), and the area
`d1 * d2 * Math.sin(a)`. -/
noncomputable def calculateArea (p1 p2 p3 : Point) : ℝ :=
  let x1 : ℝ := (p1.x : ℝ) - (p2.x : ℝ)
  let x2 : ℝ := (p3.x : ℝ) - (p2.x : ℝ)
  let y1 : ℝ := (p1.y : ℝ) - (p2.y : ℝ)
  let y2 : ℝ := (p3.y : ℝ) - (p2.y : ℝ)
  let d1 : ℝ := Real.sqrt (x1 * x1 + y1 * y1)
  let d2 : ℝ := Real.sqrt (x2 * x2 + y2 * y2)
  let a : ℝ :=
    if d1 ≠ 0 ∧ d2 ≠ 0 then Real.arccos ((x1 * x2 + y1 * y2) / (d1 * d2)) else 0
  d1 * d2 * Real.sin a

/-- Center of the parallelogram from `Stage.prototype._calculate` (app.js
lines 119-122): the midpoint of `this.points[0]` and `this.points[2]`. -/
def centerOf (p1 p2 : Point) : ℚ × ℚ :=
  ((p1.x + p2.x) / 2, (p1.y + p2.y) / 2)

/-- Fourth vertex of the parallelogram from `Stage.prototype._draw` (app.js
lines 161-164). -/
def fourthVertex (p1 p2 p3 : Point) : ℚ × ℚ :=
  (p3.x - (p2.x - p1.x), p1.y + (p3.y - p2.y))

/-- Radius of the inscribed circle from `Stage.prototype._draw` (app.js
line 177): `Math.sqrt(this.area / Math.PI)`. -/
noncomputable def circleRadius (area : ℝ) : ℝ :=
  Real.sqrt (area / Real.pi)

/-- Embeds the `Stage` state (app.js lines 45-52): the ordered point list
and the stored derived center and area (JS `null` is `none`).  The canvas
context and its dimensions are rendering-only and outside the model. -/
structure Stage where
  points : List Point
  center : Option (ℚ × ℚ)
  area : Option ℝ

/-- Initial `Stage` state set by the constructor (app.js lines 49-51). -/
def Stage.init : Stage :=
  ⟨[], none, none⟩

/-- Embeds `Stage.prototype._calculate` together with the `_calculateArea`
call it makes (app.js lines 114-125): stores the center computed from
`points[0]` and `points[2]` and the area computed from `points[0]`,
`points[1]`, `points[2]`. -/
noncomputable def Stage.calculate (s : Stage) : Stage :=
  { s with
    center := some (centerOf (s.points.getD 0 default) (s.points.getD 2 default)),
    area := some (calculateArea (s.points.getD 0 default) (s.points.getD 1 default)
      (s.points.getD 2 default)) }

/-- Embeds `Stage.prototype._check` (app.js lines 103-108): recompute (and
draw, which has no state effect) only when exactly 3 points are present. -/
noncomputable def Stage.check (s : Stage) : Stage :=
  if s.points.length = 3 then s.calculate else s

/-- Embeds `Stage.prototype.addPoint` (app.js lines 59-63): push the point,
draw it (no state effect), then run `_check`. -/
noncomputable def Stage.addPoint (s : Stage) (p : Point) : Stage :=
  Stage.check { s with points := s.points ++ [p] }

/-- Embeds `Stage.prototype.draw` (app.js lines 68-79): clear and redraw
every point (no state effect), then run `_check`. -/
noncomputable def Stage.draw (s : Stage) : Stage :=
  s.check

/-- Drag state of the interaction closure (app.js lines 234-235): the point
currently dragged, identified by its index into the stage's point list, and
the recorded pointer offsets `dx` and `dy`.  JS `point = null` is `none`. -/
structure Drag where
  idx : Nat
  dx : ℚ
  dy : ℚ
deriving DecidableEq, Repr

/-- Embeds `_startMove` (app.js lines 282-295): the loop runs `i` from
`length - 1` down to `0` and every containing point overwrites the drag
target and offsets — the source loop has no early exit. -/
def startMove (cx cy : ℚ) (points : List Point) (st : Option Drag) : Option Drag :=
  (List.range points.length).reverse.foldl
    (fun acc i =>
      let p := points.getD i default
      if p.contains cx cy then some ⟨i, cx - p.x, cy - p.y⟩ else acc)
    st

/-- Coordinate update of the dragged point (app.js lines 314-315): assigns
`point.x` and `point.y` in place, keeping the radius. -/
def updateAt : List Point → Nat → ℚ → ℚ → List Point
  | [], _, _, _ => []
  | p :: ps, 0, nx, ny => { p with x := nx, y := ny } :: ps
  | p :: ps, n + 1, nx, ny => p :: updateAt ps n nx ny

/-- Embeds `_move` (app.js lines 311-319): with an active drag target, set
its coordinates to the pointer position minus the recorded offset, then
redraw the stage; without a target the event is a no-op. -/
noncomputable def move (cx cy : ℚ) (st : Option Drag) (s : Stage) : Stage :=
  match st with
  | none => s
  | some d => Stage.draw { s with points := updateAt s.points d.idx (cx - d.dx) (cy - d.dy) }

/-- Cross product of the two side vectors, read off `_calculateArea`'s local
variables: `x1 * y2 - x2 * y1`.  Used to state closed forms of the area. -/
noncomputable def crossR (p1 p2 p3 : Point) : ℝ :=
  ((p1.x : ℝ) - (p2.x : ℝ)) * ((p3.y : ℝ) - (p2.y : ℝ)) -
    ((p3.x : ℝ) - (p2.x : ℝ)) * ((p1.y : ℝ) - (p2.y : ℝ))

/-- Rational cross product of the two side vectors at `p2`; nonzero exactly
when the three points are not collinear (non-degenerate parallelogram). -/
def crossQ (p1 p2 p3 : Point) : ℚ :=
  (p1.x - p2.x) * (p3.y - p2.y) - (p3.x - p2.x) * (p1.y - p2.y)

/-- Side relations of the quadrilateral `(p1, p2, p3, q)` taken with
consecutive vertices: side p1-p2 equals side q-p3 as a vector and side
p2-p3 equals side p1-q as a vector, together with the parallelism (zero
cross product of the sides) and equal squared length these equalities
imply, stated explicitly. -/
def parallelogramSides (p1 p2 p3 : Point) (q : ℚ × ℚ) : Prop :=
  (p2.x - p1.x = p3.x - q.1 ∧ p2.y - p1.y = p3.y - q.2) ∧
  (p3.x - p2.x = q.1 - p1.x ∧ p3.y - p2.y = q.2 - p1.y) ∧
  (p2.x - p1.x) * (p3.y - q.2) - (p3.x - q.1) * (p2.y - p1.y) = 0 ∧
  (p2.x - p1.x) ^ 2 + (p2.y - p1.y) ^ 2 = (p3.x - q.1) ^ 2 + (p3.y - q.2) ^ 2 ∧
  (p3.x - p2.x) * (q.2 - p1.y) - (q.1 - p1.x) * (p3.y - p2.y) = 0 ∧
  (p3.x - p2.x) ^ 2 + (p3.y - p2.y) ^ 2 = (q.1 - p1.x) ^ 2 + (q.2 - p1.y) ^ 2

/-- First placed point of the walkthrough scenario of the spec. -/
def ptA : Point := mkPoint 0 0

/-- Second placed point of the walkthrough scenario of the spec. -/
def ptB : Point := mkPoint 10 0

/-- Third placed point of the walkthrough scenario of the spec. -/
def ptC : Point := mkPoint 10 10

/-- Stage state after placing the three scenario points in order. -/
noncomputable def stage3 : Stage :=
  ((Stage.init.addPoint ptA).addPoint ptB).addPoint ptC

/-- Stage state after the drag scenario: mouse down at (10,0), which is on
the second point, then mouse move to (20,0). -/
noncomputable def stage9 : Stage :=
  move 20 0 (startMove 10 0 stage3.points none) stage3

/-- First-placed point of the overlap scenario used against `_startMove`. -/
def hitA : Point := mkPoint 0 0

/-- Second-placed point of the overlap scenario; its hit square overlaps
the first point's square around (2,0). -/
def hitB : Point := mkPoint 4 0

/-- Third-placed point of the overlap scenario, far from the pointer. -/
def hitC : Point := mkPoint 100 100

open Classical in
/-- Algebraic identity behind `_calculateArea`: the dot-product, `acos`,
`sin` pipeline evaluates to the absolute value of the cross product of the
two side vectors, in every case including the degenerate ones. -/
theorem area_formula (x1 y1 x2 y2 : ℝ) :
    Real.sqrt (x1 * x1 + y1 * y1) * Real.sqrt (x2 * x2 + y2 * y2) *
      Real.sin (if Real.sqrt (x1 * x1 + y1 * y1) ≠ 0 ∧
          Real.sqrt (x2 * x2 + y2 * y2) ≠ 0 then
        Real.arccos ((x1 * x2 + y1 * y2) /
          (Real.sqrt (x1 * x1 + y1 * y1) * Real.sqrt (x2 * x2 + y2 * y2)))
      else 0) =
    |x1 * y2 - x2 * y1| := by
  set d1 := Real.sqrt (x1 * x1 + y1 * y1) with hd1
  set d2 := Real.sqrt (x2 * x2 + y2 * y2) with hd2
  by_cases h1 : d1 = 0
  · have hle : x1 * x1 + y1 * y1 ≤ 0 := Real.sqrt_eq_zero'.mp h1
    have h0 : x1 * x1 + y1 * y1 = 0 :=
      le_antisymm hle (add_nonneg (mul_self_nonneg x1) (mul_self_nonneg y1))
    have hx1 : x1 = 0 :=
      mul_self_eq_zero.mp
        (le_antisymm (by linarith [mul_self_nonneg y1]) (mul_self_nonneg x1))
    have hy1 : y1 = 0 :=
      mul_self_eq_zero.mp
        (le_antisymm (by linarith [mul_self_nonneg x1]) (mul_self_nonneg y1))
    rw [h1, hx1, hy1]
    simp
  · by_cases h2 : d2 = 0
    · have hle : x2 * x2 + y2 * y2 ≤ 0 := Real.sqrt_eq_zero'.mp h2
      have h0 : x2 * x2 + y2 * y2 = 0 :=
        le_antisymm hle (add_nonneg (mul_self_nonneg x2) (mul_self_nonneg y2))
      have hx2 : x2 = 0 :=
        mul_self_eq_zero.mp
          (le_antisymm (by linarith [mul_self_nonneg y2]) (mul_self_nonneg x2))
      have hy2 : y2 = 0 :=
        mul_self_eq_zero.mp
          (le_antisymm (by linarith [mul_self_nonneg x2]) (mul_self_nonneg y2))
      rw [h2, hx2, hy2]
      simp
    · rw [if_pos ⟨h1, h2⟩, Real.sin_arccos]
      have hd1p : 0 < d1 := lt_of_le_of_ne (Real.sqrt_nonneg _) (Ne.symm h1)
      have hd2p : 0 < d2 := lt_of_le_of_ne (Real.sqrt_nonneg _) (Ne.symm h2)
      have hprod : 0 < d1 * d2 := mul_pos hd1p hd2p
      have hkey : d1 * d2 * Real.sqrt (1 - ((x1 * x2 + y1 * y2) / (d1 * d2)) ^ 2) =
          Real.sqrt ((d1 * d2) ^ 2 * (1 - ((x1 * x2 + y1 * y2) / (d1 * d2)) ^ 2)) := by
        rw [Real.sqrt_mul (by positivity) _, Real.sqrt_sq hprod.le]
      rw [hkey]
      have e1 : d1 ^ 2 = x1 * x1 + y1 * y1 :=
        Real.sq_sqrt (add_nonneg (mul_self_nonneg x1) (mul_self_nonneg y1))
      have e2 : d2 ^ 2 = x2 * x2 + y2 * y2 :=
        Real.sq_sqrt (add_nonneg (mul_self_nonneg x2) (mul_self_nonneg y2))
      have ht : ((x1 * x2 + y1 * y2) / (d1 * d2)) ^ 2 * (d1 * d2) ^ 2 =
          (x1 * x2 + y1 * y2) ^ 2 := by
        field_simp
      have harg : (d1 * d2) ^ 2 * (1 - ((x1 * x2 + y1 * y2) / (d1 * d2)) ^ 2) =
          (x1 * y2 - x2 * y1) ^ 2 := by
        calc (d1 * d2) ^ 2 * (1 - ((x1 * x2 + y1 * y2) / (d1 * d2)) ^ 2) =
            d1 ^ 2 * d2 ^ 2 -
              ((x1 * x2 + y1 * y2) / (d1 * d2)) ^ 2 * (d1 * d2) ^ 2 := by ring
          _ = (x1 * x1 + y1 * y1) * (x2 * x2 + y2 * y2) -
              (x1 * x2 + y1 * y2) ^ 2 := by rw [e1, e2, ht]
          _ = (x1 * y2 - x2 * y1) ^ 2 := by ring
      rw [harg, Real.sqrt_sq_eq_abs]

/-- Closed form of the source's area computation: `_calculateArea` returns
the absolute value of the cross product of the side vectors at `p2`. -/
theorem calculateArea_eq_abs_cross (p1 p2 p3 : Point) :
    calculateArea p1 p2 p3 = |crossR p1 p2 p3| := by
  unfold calculateArea crossR
  exact area_formula _ _ _ _

/-- Unfolds `_check` when the stage does not hold exactly 3 points. -/
theorem check_of_length_ne (s : Stage) (h : s.points.length ≠ 3) : s.check = s :=
  if_neg h

/-- Unfolds `_check` when the stage holds exactly 3 points. -/
theorem check_of_length_eq (s : Stage) (h : s.points.length = 3) : s.check = s.calculate :=
  if_pos h

/-- Stage state after the first scenario point. -/
theorem stage1_eq : Stage.init.addPoint ptA = ⟨[ptA], none, none⟩ := by
  unfold Stage.addPoint
  rw [check_of_length_ne _ (by simp [Stage.init])]
  rfl

/-- Stage state after the second scenario point. -/
theorem stage2_eq : (Stage.init.addPoint ptA).addPoint ptB = ⟨[ptA, ptB], none, none⟩ := by
  rw [stage1_eq]
  unfold Stage.addPoint
  rw [check_of_length_ne _ (by simp)]
  rfl

/-- Closed form of the stage after all three scenario points. -/
theorem stage3_eq :
    stage3 = ⟨[ptA, ptB, ptC], some (centerOf ptA ptC), some (calculateArea ptA ptB ptC)⟩ := by
  unfold stage3
  rw [stage2_eq]
  unfold Stage.addPoint
  rw [check_of_length_eq _ (by simp)]
  unfold Stage.calculate
  rfl

/-- Point list of the completed scenario stage. -/
theorem stage3_points : stage3.points = [ptA, ptB, ptC] := by
  rw [stage3_eq]

/-- Stored center of the completed scenario stage. -/
theorem stage3_center : stage3.center = some (5, 5) := by
  rw [stage3_eq]
  norm_num [centerOf, ptA, ptC, mkPoint]

/-- Area value of the scenario triple (0,0), (10,0), (10,10). -/
theorem area_scenario : calculateArea ptA ptB ptC = 100 := by
  rw [calculateArea_eq_abs_cross]
  norm_num [crossR, ptA, ptB, ptC, mkPoint]

/-- Stored area of the completed scenario stage. -/
theorem stage3_area : stage3.area = some 100 := by
  rw [stage3_eq, area_scenario]

/-- Mouse-down at (10,0) on the completed scenario stage picks the second
point with zero offsets. -/
theorem startMove_scenario : startMove 10 0 stage3.points none = some ⟨1, 0, 0⟩ := by
  rw [stage3_points]
  norm_num [startMove, Point.contains, ptA, ptB, ptC, mkPoint, List.range_succ]

/-- Closed form of the stage after the drag of the second point from
(10,0) to (20,0). -/
theorem stage9_eq :
    stage9 = ⟨[ptA, mkPoint 20 0, ptC], some (centerOf ptA ptC),
      some (calculateArea ptA (mkPoint 20 0) ptC)⟩ := by
  unfold stage9
  rw [startMove_scenario]
  unfold move Stage.draw
  rw [stage3_eq]
  have hupd : updateAt [ptA, ptB, ptC] 1 (20 - 0) (0 - 0) = [ptA, mkPoint 20 0, ptC] := by
    norm_num [updateAt, ptB, mkPoint]
  simp only [hupd]
  rw [check_of_length_eq _ (by simp)]
  unfold Stage.calculate
  rfl

/-- Area value after the drag: the triple (0,0), (20,0), (10,10). -/
theorem area_after_drag : calculateArea ptA (mkPoint 20 0) ptC = 200 := by
  rw [calculateArea_eq_abs_cross]
  norm_num [crossR, ptA, ptC, mkPoint]

/-- C1 counterexample: with the stage already holding 3 points, `addPoint`
pushes a 4th point, so the point-list length changes from 3 to 4. -/
theorem fourth_point_grows_list :
    stage3.points.length = 3 ∧ (stage3.addPoint (mkPoint 5 5)).points.length = 4 := by
  have h3 : stage3.points.length = 3 := by rw [stage3_points]; rfl
  refine ⟨h3, ?_⟩
  unfold Stage.addPoint
  rw [check_of_length_ne _ (by simp [h3])]
  simp [h3]

/-- C1 amended: calling `addPoint` on a COMPLETE stage (3 points) grows the
point list to length 4, but leaves the stored derived center and area
exactly as they were. -/
theorem addPoint_at_capacity (s : Stage) (p : Point) (h : s.points.length = 3) :
    (s.addPoint p).points.length = 4 ∧ (s.addPoint p).center = s.center ∧
      (s.addPoint p).area = s.area := by
  unfold Stage.addPoint
  rw [check_of_length_ne _ (by simp [h])]
  exact ⟨by simp [h], rfl, rfl⟩

/-- Witness for the amended C1 at the completed scenario stage. -/
theorem addPoint_at_capacity_witness :
    stage3.points.length = 3 ∧
      ((stage3.addPoint (mkPoint 6 6)).points.length = 4 ∧
        (stage3.addPoint (mkPoint 6 6)).center = stage3.center ∧
        (stage3.addPoint (mkPoint 6 6)).area = stage3.area) :=
  ⟨by rw [stage3_points]; rfl,
    addPoint_at_capacity stage3 (mkPoint 6 6) (by rw [stage3_points]; rfl)⟩

/-- C2 (code evidence): at (2,0) the hit squares of the first point (0,0)
and the second point (4,0) overlap and both contain the pointer, yet
`_startMove` records the first-added point (index 0) with its offset — the
reverse loop has no early exit, so its final assignment, the lowest hit
index, wins instead of the last-added point. -/
theorem startMove_first_added_wins :
    hitA.contains 2 0 = true ∧ hitB.contains 2 0 = true ∧
      startMove 2 0 [hitA, hitB, hitC] none = some ⟨0, 2, 0⟩ := by
  refine ⟨?_, ?_, ?_⟩ <;>
    norm_num [startMove, Point.contains, hitA, hitB, hitC, mkPoint, List.range_succ]

/-- C3: `Point.prototype.contains` returns true iff the query coordinate
lies within the axis-aligned square of half-width `radius` centered at the
point, with inclusive bounds on all four sides; any coordinate strictly
outside that square yields false. -/
theorem contains_iff_square (p : Point) (x y : ℚ) :
    p.contains x y = true ↔ |x - p.x| ≤ p.radius ∧ |y - p.y| ≤ p.radius := by
  unfold Point.contains
  simp only [Bool.and_eq_true, decide_eq_true_eq, abs_le, ge_iff_le]
  constructor
  · rintro ⟨⟨⟨h1, h2⟩, h3⟩, h4⟩
    exact ⟨⟨by linarith, by linarith⟩, ⟨by linarith, by linarith⟩⟩
  · rintro ⟨⟨h1, h2⟩, h3, h4⟩
    exact ⟨⟨⟨by linarith, by linarith⟩, by linarith⟩, by linarith⟩

/-- C4: a coincident pair p1 = p2 (zero-length side, `d1 = 0`) makes the
computed area 0 and the inscribed-circle radius `sqrt(area / pi)` equal to
0; the same holds when p3 = p2. -/
theorem calculateArea_degenerate (p1 p2 p3 : Point) (h : p1 = p2 ∨ p3 = p2) :
    calculateArea p1 p2 p3 = 0 ∧ circleRadius (calculateArea p1 p2 p3) = 0 := by
  have hc : crossR p1 p2 p3 = 0 := by
    rcases h with h | h <;> rw [h] <;> unfold crossR <;> ring
  have ha : calculateArea p1 p2 p3 = 0 := by
    rw [calculateArea_eq_abs_cross, hc, abs_zero]
  refine ⟨ha, ?_⟩
  rw [ha]
  unfold circleRadius
  rw [zero_div, Real.sqrt_zero]

/-- Witness for C4 with p1 = p2 = (1,2) and p3 = (3,4). -/
theorem calculateArea_degenerate_witness :
    (mkPoint 1 2 = mkPoint 1 2 ∨ mkPoint 3 4 = mkPoint 1 2) ∧
      (calculateArea (mkPoint 1 2) (mkPoint 1 2) (mkPoint 3 4) = 0 ∧
        circleRadius (calculateArea (mkPoint 1 2) (mkPoint 1 2) (mkPoint 3 4)) = 0) :=
  ⟨Or.inl rfl,
    calculateArea_degenerate (mkPoint 1 2) (mkPoint 1 2) (mkPoint 3 4) (Or.inl rfl)⟩

/-- C5: the area computation of `_calculateArea` is invariant under
swapping the roles of p1 and p3. -/
theorem calculateArea_swap_symm (p1 p2 p3 : Point) :
    calculateArea p1 p2 p3 = calculateArea p3 p2 p1 := by
  rw [calculateArea_eq_abs_cross, calculateArea_eq_abs_cross,
    show crossR p3 p2 p1 = -crossR p1 p2 p3 by unfold crossR; ring, abs_neg]

/-- C6: for three points with a non-degenerate cross product, the fourth
vertex computed in `_draw` makes (p1, p2, p3, p4), taken as consecutive
vertices, a parallelogram: side p1-p2 is parallel and equal-length to side
p4-p3, and side p2-p3 is parallel and equal-length to side p1-p4. -/
theorem fourthVertex_parallelogram (p1 p2 p3 : Point) (h : crossQ p1 p2 p3 ≠ 0) :
    parallelogramSides p1 p2 p3 (fourthVertex p1 p2 p3) := by
  simp only [parallelogramSides, fourthVertex]
  refine ⟨⟨?_, ?_⟩, ⟨?_, ?_⟩, ?_, ?_, ?_, ?_⟩ <;> ring

/-- Witness for C6 at the non-degenerate triple (0,0), (10,0), (10,10). -/
theorem fourthVertex_parallelogram_witness :
    crossQ (mkPoint 0 0) (mkPoint 10 0) (mkPoint 10 10) ≠ 0 ∧
      parallelogramSides (mkPoint 0 0) (mkPoint 10 0) (mkPoint 10 10)
        (fourthVertex (mkPoint 0 0) (mkPoint 10 0) (mkPoint 10 10)) :=
  ⟨by norm_num [crossQ, mkPoint],
    fourthVertex_parallelogram (mkPoint 0 0) (mkPoint 10 0) (mkPoint 10 10)
      (by norm_num [crossQ, mkPoint])⟩

/-- C7: placing (0,0), (10,0), (10,10) in order yields the fourth vertex
(0,10), the stored center (5,5), the stored area 100, and the inscribed
circle radius `sqrt(100 / pi)` derived from that stored area. -/
theorem scenario_three_points :
    stage3.center = some (5, 5) ∧ stage3.area = some 100 ∧
      fourthVertex (stage3.points.getD 0 default) (stage3.points.getD 1 default)
        (stage3.points.getD 2 default) = (0, 10) ∧
      stage3.area.map circleRadius = some (Real.sqrt (100 / Real.pi)) := by
  refine ⟨stage3_center, stage3_area, ?_, ?_⟩
  · rw [stage3_points]
    norm_num [fourthVertex, ptA, ptB, ptC, mkPoint]
  · rw [stage3_area]
    simp [circleRadius]

/-- C8: the computed area is always nonnegative, so `area / pi`, the
argument handed to the square root when drawing the inscribed circle, is
never negative. -/
theorem calculateArea_nonneg (p1 p2 p3 : Point) :
    0 ≤ calculateArea p1 p2 p3 ∧ 0 ≤ calculateArea p1 p2 p3 / Real.pi := by
  have h : 0 ≤ calculateArea p1 p2 p3 := by
    rw [calculateArea_eq_abs_cross]
    exact abs_nonneg _
  exact ⟨h, div_nonneg h Real.pi_pos.le⟩

/-- C9 counterexample: after dragging the second point from (10,0) to
(20,0) the recomputed center equals the previous center (5,5) — the
center, a function of points 1 and 3 only, does not change. -/
theorem drag_center_unchanged :
    stage9.center = some (5, 5) ∧ stage3.center = some (5, 5) := by
  refine ⟨?_, stage3_center⟩
  rw [stage9_eq]
  norm_num [centerOf, ptA, ptC, mkPoint]

/-- C9 amended: the drag triggers a full recompute — the stored area
changes from 100 to 200 — while the stored center, the midpoint of points
1 and 3, keeps its previous value, and the point count remains 3. -/
theorem drag_point2_recompute :
    stage9.points.length = 3 ∧ stage3.area = some 100 ∧ stage9.area = some 200 ∧
      stage9.center = stage3.center := by
  refine ⟨?_, stage3_area, ?_, ?_⟩
  · rw [stage9_eq]
    rfl
  · rw [stage9_eq, area_after_drag]
  · rw [stage9_eq, stage3_eq]

/-- C10: a push that does not bring the point count to exactly 3 leaves the
stored center and area exactly as they were before the call — `_check`
recomputes them only at count 3. -/
theorem addPoint_below_capacity_frame (s : Stage) (p : Point)
    (h : s.points.length + 1 ≠ 3) :
    (s.addPoint p).center = s.center ∧ (s.addPoint p).area = s.area := by
  unfold Stage.addPoint
  rw [check_of_length_ne _ (by simpa using h)]
  exact ⟨rfl, rfl⟩

/-- Witness for C10 at the empty stage. -/
theorem addPoint_below_capacity_frame_witness :
    (Stage.init.points.length + 1 ≠ 3) ∧
      ((Stage.init.addPoint (mkPoint 1 2)).center = Stage.init.center ∧
        (Stage.init.addPoint (mkPoint 1 2)).area = Stage.init.area) :=
  ⟨by simp [Stage.init],
    addPoint_below_capacity_frame Stage.init (mkPoint 1 2) (by simp [Stage.init])⟩
